import Mathlib

/-!
Shallow embedding of the VidDataTrainCrop annotation tool (`src/main.rs`).

Times and normalized coordinates are embedded as exact rationals (`ℚ`); the
source's `f32`/`f64` arithmetic is modelled exactly, so every identity proved
here is an identity of the ideal arithmetic the source computes with.
Machine-integer casts (`as i32`) are modelled with explicit truncation and
saturation.  GUI-handle fields of the source's `VideoApp` that no claim
mentions (the frame texture, the drag anchor, the frame-number text buffer,
the input-folder path) are omitted from the state record.
-/

namespace VidCrop

/-- `SerializableRect` of `main.rs`: a crop rectangle in normalized media
coordinates. -/
structure SerializableRect where
  min_x : ℚ
  min_y : ℚ
  max_x : ℚ
  max_y : ℚ
deriving DecidableEq

/-- `VideoRange` of `main.rs`: one annotated range. -/
structure VideoRange where
  start_time : ℚ
  end_time : ℚ
  crop_rect_norm : Option SerializableRect
  note : String
deriving DecidableEq

/-- The default range the app starts with (`VideoApp::default`). -/
def dfltRange : VideoRange :=
  { start_time := 0, end_time := 0, crop_rect_norm := none, note := "" }

/-- `PlayState` of `main.rs`. -/
inductive PlayState where
  | Playing
  | PlayingUntil (deadline : ℚ)
  | NotPlaying
deriving DecidableEq

/-- `MediaSource` of `main.rs`, reduced to the data the claims touch: the
intrinsic pixel size reported by the decoder (the `VideoCapture` /
`Mat` handles themselves are external resources). -/
inductive MediaSource where
  | Video (w h : ℚ)
  | Image (w h : ℚ)
deriving DecidableEq

/-- A file path, split into the pieces `run_export` extracts from a
`PathBuf` (`file_stem`, `extension`, enclosing directory). -/
structure MPath where
  dir : String
  stem : String
  ext : String
deriving DecidableEq

def dfltPath : MPath := { dir := "", stem := "", ext := "" }

/-- Rendering of a path back to the string handed to the child process. -/
def MPath.render (p : MPath) : String := p.dir ++ "/" ++ p.stem ++ "." ++ p.ext

/-- The image-extension set of `main.rs` (`matches!(ext.as_str(), "jpg" | ...)`). -/
def imageExts : List String := ["jpg", "jpeg", "png", "bmp", "webp"]

/-- ASCII lowercasing of one character; on the ASCII file extensions this
program compares against, Rust's `to_lowercase` acts exactly like this. -/
def lowerChar (c : Char) : Char :=
  if 'A' ≤ c ∧ c ≤ 'Z' then Char.ofNat (c.toNat + 32) else c

/-- Rust `str::to_lowercase`, modelled for ASCII strings. -/
def lowerStr (s : String) : String := String.mk (s.data.map lowerChar)

/-- The `matches!(ext.as_str(), "jpg" | "jpeg" | "png" | "bmp" | "webp")`
test of `main.rs`. -/
def isImageExt (e : String) : Bool := imageExts.contains e

/-- The `VideoApp` state (`main.rs`), restricted to the fields the claims
are about. -/
structure VideoApp where
  output_folder : Option String
  videos : List MPath
  selected_file_idx : Option Nat
  media : Option MediaSource
  is_image : Bool
  current_time : ℚ
  duration : ℚ
  play_state : PlayState
  native_fps : ℚ
  ranges : List VideoRange
  current_range_idx : Nat
  is_exporting : Bool
  export_error : Option String
deriving DecidableEq

/-- `VideoApp::is_playing`. -/
def VideoApp.isPlaying (st : VideoApp) : Bool :=
  match st.play_state with
  | .Playing => true
  | .PlayingUntil _ => true
  | .NotPlaying => false

/-- The I key / "Set Start" button handler:
`self.ranges[self.current_range_idx].start_time = self.current_time`, guarded
in `update` by `!self.ranges.is_empty()`. -/
def setStart (st : VideoApp) : VideoApp :=
  if st.ranges.isEmpty then st
  else
    { st with
      ranges := st.ranges.set st.current_range_idx
        { st.ranges.getD st.current_range_idx dfltRange with start_time := st.current_time } }

/-- The O key / "Set End" button handler:
`self.ranges[self.current_range_idx].end_time = self.current_time`, guarded
in `update` by `!self.ranges.is_empty()`. -/
def setEnd (st : VideoApp) : VideoApp :=
  if st.ranges.isEmpty then st
  else
    { st with
      ranges := st.ranges.set st.current_range_idx
        { st.ranges.getD st.current_range_idx dfltRange with end_time := st.current_time } }

/-- The "Add Range" button handler: pushes
`{start_time: current_time, end_time: duration, crop: None, note: ""}` and
selects the new last index. -/
def addRange (st : VideoApp) : VideoApp :=
  { st with
    ranges := st.ranges ++
      [{ start_time := st.current_time, end_time := st.duration,
         crop_rect_norm := none, note := "" }],
    current_range_idx := st.ranges.length }

/-- The per-range delete button handler: `self.ranges.remove(idx);
self.current_range_idx = self.current_range_idx.clamp(0, self.ranges.len().saturating_sub(1))`.
On `usize`, `clamp(0, hi)` is `min · hi`, and `saturating_sub` is `ℕ`
subtraction. -/
def removeRange (st : VideoApp) (idx : Nat) : VideoApp :=
  let rs := st.ranges.eraseIdx idx
  { st with ranges := rs, current_range_idx := min st.current_range_idx (rs.length - 1) }

/-- The per-tick playback advance at the end of `VideoApp::update`:
when playing and not an image, `current_time += stable_dt`; then
`PlayingUntil(x)` becomes `NotPlaying` if `x < current_time`; then the state
becomes `NotPlaying` if `current_time >= duration`. -/
def tick (st : VideoApp) (dt : ℚ) : VideoApp :=
  if st.isPlaying && !st.is_image then
    let t := st.current_time + dt
    let ps :=
      match st.play_state with
      | .PlayingUntil x => if x < t then PlayState.NotPlaying else PlayState.PlayingUntil x
      | other => other
    let ps := if st.duration ≤ t then PlayState.NotPlaying else ps
    { st with current_time := t, play_state := ps }
  else st

/-- The file-selection handler at the bottom of `VideoApp::update`
(`if let Some(idx) = file_idx_to_load`).  The filesystem and decoder are
external: `note` is the sidecar contents that `fs::read_to_string` produced
(empty when absent or failing), `imreadRes` is the outcome of
`imgcodecs::imread` (intrinsic size on success), and `videoRes` is the
outcome of `VideoCapture::from_file` — on success the fps and frame count
after the source's `unwrap_or(30.0)` / `unwrap_or(0.0)` defaults, plus the
intrinsic size.  `selected_file_idx` and `is_image` are assigned before the
open is attempted, exactly as in the source. -/
def selectFile (st : VideoApp) (idx : Nat) (note : String)
    (imreadRes : Option (ℚ × ℚ)) (videoRes : Option (ℚ × ℚ × ℚ × ℚ)) : VideoApp :=
  let p := st.videos.getD idx dfltPath
  let isImg := isImageExt (lowerStr p.ext)
  let base := { st with selected_file_idx := some idx, is_image := isImg }
  if isImg then
    match imreadRes with
    | some (w, h) =>
      { base with
        native_fps := 1, duration := 0,
        ranges := [{ start_time := 0, end_time := 0, crop_rect_norm := none, note := note }],
        current_range_idx := 0, current_time := 0, media := some (.Image w h) }
    | none => base
  else
    match videoRes with
    | some (fps, frames, w, h) =>
      { base with
        native_fps := fps, duration := frames / fps,
        ranges := [{ start_time := 0, end_time := frames / fps,
                     crop_rect_norm := none, note := note }],
        current_range_idx := 0, current_time := 0, media := some (.Video w h) }
    | none => base

/-! ### Export orchestrator (`VideoApp::run_export` and its worker) -/

/-- Truncation toward zero, the rounding of Rust's float-to-int `as` casts. -/
def ratTrunc (q : ℚ) : ℤ := if 0 ≤ q then ⌊q⌋ else -⌊-q⌋

/-- Rust's `as i32` on an `f64`: truncate toward zero, saturating at the
`i32` bounds. -/
def i32Cast (q : ℚ) : ℤ := max (-(2 ^ 31)) (min (2 ^ 31 - 1) (ratTrunc q))

/-- Two's-complement `x & !1` on `i32`: clearing bit 0 subtracts the
nonnegative remainder mod 2, i.e. it is floor division by 2 followed by
doubling (also for negative operands). -/
def i32AndNotOne (n : ℤ) : ℤ := 2 * Int.fdiv n 2

/-- The four pixel-space crop numbers computed in the worker:
`cw = ((max_x-min_x).abs() as f64 * w) as i32 & !1`, `ch` likewise with `h`,
`cx = (min_x.min(max_x) as f64 * w) as i32`, `cy` likewise with `h`. -/
def cropNums (norm : SerializableRect) (w h : ℚ) : ℤ × ℤ × ℤ × ℤ :=
  (i32AndNotOne (i32Cast (|norm.max_x - norm.min_x| * w)),
   i32AndNotOne (i32Cast (|norm.max_y - norm.min_y| * h)),
   i32Cast (min norm.min_x norm.max_x * w),
   i32Cast (min norm.min_y norm.max_y * h))

/-- The `crop=cw:ch:cx:cy` filter string. -/
def cropFilterStr (norm : SerializableRect) (w h : ℚ) : String :=
  "crop=" ++ toString (cropNums norm w h).1 ++ ":" ++ toString (cropNums norm w h).2.1
    ++ ":" ++ toString (cropNums norm w h).2.2.1 ++ ":" ++ toString (cropNums norm w h).2.2.2

/-- Rust's `f64::to_string` (`Display`).  Rust prints an integral float with
no fractional part ("0", "5"); every time value appearing in a theorem below
is integral, so only the integral branch is relied upon (the non-integral
branch, Rust's shortest-round-trip decimal, is represented symbolically). -/
def fmtF64 (q : ℚ) : String :=
  if q.den = 1 then toString q.num else toString q.num ++ "/" ++ toString q.den

/-- The by-value snapshot the worker thread receives: the cloned range list,
the image flag and lowercased extension, the file stem, the rendered input
path, the output directory, and the intrinsic dimensions captured before the
thread is spawned. -/
structure WorkerSnapshot where
  ranges : List VideoRange
  isImg : Bool
  ext : String
  stem : String
  inputPath : String
  outDir : String
  vidW : ℚ
  vidH : ℚ
deriving DecidableEq

/-- `out_base` for range `i`: `out_dir.join("{stem}_range{i}")` when more
than one range, else `out_dir.join(stem)`. -/
def outBaseFor (snap : WorkerSnapshot) (i : Nat) : String :=
  if snap.ranges.length > 1 then snap.outDir ++ "/" ++ snap.stem ++ "_range" ++ toString i
  else snap.outDir ++ "/" ++ snap.stem

/-- The transcoder argument vector built for range `i`, in the exact order
the source pushes arguments: `-y`, the seek pair before `-i` for videos,
`-i input`, `-vf` with the comma-joined filter list when non-empty, codec
flags for videos, and the output file
(`out_base.with_added_extension(out_ext)`). -/
def rangeArgs (snap : WorkerSnapshot) (i : Nat) (r : VideoRange) : List String :=
  ["-y"]
    ++ (if snap.isImg then [] else ["-ss", fmtF64 r.start_time, "-to", fmtF64 r.end_time])
    ++ ["-i", snap.inputPath]
    ++ (let filters :=
          (if snap.isImg then [] else ["fps=16"])
            ++ (match r.crop_rect_norm with
                | some norm => [cropFilterStr norm snap.vidW snap.vidH]
                | none => [])
        if filters.isEmpty then [] else ["-vf", String.intercalate "," filters])
    ++ (if snap.isImg then [] else ["-c:v", "libx264", "-preset", "ultrafast"])
    ++ [outBaseFor snap i ++ "." ++ (if snap.isImg then snap.ext else "mp4")]

/-- An observable action of the worker: a sidecar write or a child-process
invocation. -/
inductive Effect where
  | writeNote (path contents : String)
  | runCmd (args : List String)
deriving DecidableEq

/-- Outcome of `cmd.status()` for one invocation: a spawn error, or an exit
with `status.code()` (`None` when signal-terminated; `success()` iff the
code is zero). -/
inductive CmdResult where
  | spawnErr (msg : String)
  | exited (code : Option ℤ)
deriving DecidableEq

/-- `ExitStatus::success` / spawn failure as a boolean. -/
def CmdResult.success : CmdResult → Bool
  | .exited (some 0) => true
  | _ => false

/-- Rust `{:?}` of an `Option<i32>`. -/
def reprOptInt : Option ℤ → String
  | some n => "Some(" ++ toString n ++ ")"
  | none => "None"

/-- The error message the worker stores for a failure on range `i`. -/
def failMsg (res : CmdResult) (i : Nat) : String :=
  match res with
  | .spawnErr e => "Failed to start FFmpeg: " ++ e
  | .exited code =>
    "FFmpeg failed on range " ++ toString i ++ " with exit code: " ++ reprOptInt code

/-- The effects of one loop iteration: the best-effort sidecar write when the
note is non-empty, then the child-process run. -/
def rangeEffects (snap : WorkerSnapshot) (i : Nat) (r : VideoRange) : List Effect :=
  (if r.note = "" then [] else [.writeNote (outBaseFor snap i ++ ".txt") r.note])
    ++ [.runCmd (rangeArgs snap i r)]

/-- The worker loop from index `i` over the remaining ranges.  `exec` is the
external child-process oracle, indexed by range number.  On the first
non-success the error message is stored and the loop breaks. -/
def exportAux (snap : WorkerSnapshot) (exec : Nat → CmdResult) :
    Nat → List VideoRange → List Effect × Option String
  | _, [] => ([], none)
  | i, r :: rest =>
    let effs := rangeEffects snap i r
    match exec i with
    | .spawnErr e => (effs, some ("Failed to start FFmpeg: " ++ e))
    | .exited code =>
      if code = some 0 then
        let res := exportAux snap exec (i + 1) rest
        (effs ++ res.1, res.2)
      else
        (effs,
         some ("FFmpeg failed on range " ++ toString i ++ " with exit code: " ++ reprOptInt code))

/-- The whole worker run: effect trace and final contents of the error cell. -/
def exportEffects (snap : WorkerSnapshot) (exec : Nat → CmdResult) :
    List Effect × Option String :=
  exportAux snap exec 0 snap.ranges

/-- The child-process invocations of an effect trace, in order. -/
def cmdsOf (effs : List Effect) : List (List String) :=
  effs.filterMap fun e => match e with | .runCmd a => some a | _ => none

/-- The sidecar writes of an effect trace, in order. -/
def notesOf (effs : List Effect) : List (String × String) :=
  effs.filterMap fun e => match e with | .writeNote p c => some (p, c) | _ => none

/-- `VideoApp::run_export`: a no-op without a selected file and an output
directory; otherwise it stores `true` into the exporting flag (a plain
store), clears the error cell, and spawns the worker on a by-value snapshot.
Intrinsic dimensions default to 1920×1080 when unavailable, as in the
source's `unwrap_or` calls. -/
def runExport (st : VideoApp) : VideoApp × Option WorkerSnapshot :=
  match st.selected_file_idx, st.output_folder with
  | some idx, some outDir =>
    let p := st.videos.getD idx dfltPath
    let ext := lowerStr p.ext
    let wh : ℚ × ℚ :=
      match st.media with
      | some (.Video w h) => (w, h)
      | some (.Image w h) => (w, h)
      | none => (1920, 1080)
    ({ st with is_exporting := true, export_error := none },
     some { ranges := st.ranges, isImg := isImageExt ext, ext := ext, stem := p.stem,
            inputPath := p.render, outDir := outDir, vidW := wh.1, vidH := wh.2 })
  | _, _ => (st, none)

/-- The export button sits inside `add_enabled_ui(!exporting, ...)`: it can
only be clicked while the flag is false. -/
def exportButtonEnabled (st : VideoApp) : Bool := !st.is_exporting

/-- A click on the export button as the UI delivers it: the handler runs only
when the button is enabled. -/
def uiExportClick (st : VideoApp) : VideoApp × Option WorkerSnapshot :=
  if exportButtonEnabled st then runExport st else (st, none)

/-! ### Display mapper (`to_norm` / `from_norm` closures in `update`) -/

/-- The display rectangle (`egui::Rect`), as position and extent. -/
structure DispRect where
  min_x : ℚ
  min_y : ℚ
  width : ℚ
  height : ℚ

/-- `to_norm`: display point to normalized media coordinates. -/
def to_norm (rect : DispRect) (p : ℚ × ℚ) : ℚ × ℚ :=
  ((p.1 - rect.min_x) / rect.width, (p.2 - rect.min_y) / rect.height)

/-- `from_norm`: normalized media coordinates back to display space. -/
def from_norm (rect : DispRect) (p : ℚ × ℚ) : ℚ × ℚ :=
  (p.1 * rect.width + rect.min_x, p.2 * rect.height + rect.min_y)

/-- Modelled from the spec: `round_down_even q` is the greatest even integer
not exceeding `q`, i.e. `2⌊q/2⌋`. -/
def roundDownEven (q : ℚ) : ℤ := 2 * ⌊q / 2⌋

/-- A full-frame crop rectangle, the concrete input of claim C4's example. -/
def fullCrop : SerializableRect := { min_x := 0, min_y := 0, max_x := 1, max_y := 1 }

/-- `VideoApp::default`, restricted to the embedded fields. -/
def baseApp : VideoApp :=
  { output_folder := none, videos := [], selected_file_idx := none, media := none,
    is_image := false, current_time := 0, duration := 0, play_state := .NotPlaying,
    native_fps := 30, ranges := [dfltRange], current_range_idx := 0,
    is_exporting := false, export_error := none }

/-- A reachable state for claim C1: a loaded video of duration 10, one range
`[0, 5]`, playhead at `t = 7` (set via the slider). -/
def cexStC1 : VideoApp :=
  { baseApp with
    duration := 10, current_time := 7, media := some (.Video 640 480),
    ranges := [{ start_time := 0, end_time := 5, crop_rect_norm := none, note := "" }] }

/-- A state for C1's witness: one range, cursor on it, playhead at `t = 3`. -/
def witStC1 : VideoApp :=
  { baseApp with
    duration := 8, current_time := 3, media := some (.Video 640 480),
    ranges := [{ start_time := 1, end_time := 2, crop_rect_norm := none, note := "n" }] }

/-- A state for claim C2's counterexample: a single range about to be removed. -/
def cexStC2 : VideoApp :=
  { baseApp with
    duration := 10,
    ranges := [{ start_time := 0, end_time := 5, crop_rect_norm := none, note := "" }] }

/-- A state for C2's witness: two ranges, cursor on the second. -/
def witStC2 : VideoApp :=
  { baseApp with
    duration := 10, current_range_idx := 1,
    ranges := [{ start_time := 0, end_time := 1, crop_rect_norm := none, note := "" },
               { start_time := 2, end_time := 3, crop_rect_norm := none, note := "" }] }

/-- A state for claim C3: an export already running (`is_exporting` true, a
stale error displayed), with a file selected and an output folder set. -/
def cexStC3 : VideoApp :=
  { baseApp with
    output_folder := some "out",
    videos := [{ dir := "in", stem := "clip", ext := "mp4" }],
    selected_file_idx := some 0, media := some (.Video 640 480), duration := 10,
    is_exporting := true, export_error := some "previous failure",
    ranges := [{ start_time := 0, end_time := 5, crop_rect_norm := none, note := "" }] }

/-- A state for claim C8's counterexample: `PlayingUntil 5` with the deadline
equal to the duration, playhead one second before both. -/
def cexStC8 : VideoApp :=
  { baseApp with current_time := 4, duration := 5, play_state := .PlayingUntil 5 }

/-- A state for C8's witness: `PlayingUntil 3` well before the end of a long
video. -/
def witStC8 : VideoApp :=
  { baseApp with current_time := 0, duration := 100, play_state := .PlayingUntil 3 }

/-- A state for claim C9: file 0 loaded, file 1 about to fail to open. -/
def cexStC9 : VideoApp :=
  { baseApp with
    videos := [{ dir := "in", stem := "a", ext := "mp4" },
               { dir := "in", stem := "b", ext := "mp4" }],
    selected_file_idx := some 0, media := some (.Video 640 480), duration := 10 }

/-- The worker snapshot for claim C6's witness: three ranges of a video. -/
def witSnapC6 : WorkerSnapshot :=
  { ranges := [{ start_time := 0, end_time := 1, crop_rect_norm := none, note := "" },
               { start_time := 2, end_time := 3, crop_rect_norm := none, note := "" },
               { start_time := 4, end_time := 5, crop_rect_norm := none, note := "" }],
    isImg := false, ext := "mp4", stem := "clip", inputPath := "in/clip.mp4",
    outDir := "out", vidW := 1920, vidH := 1080 }

/-- The child-process oracle for C6's witness: range 1 exits with code 1,
every other invocation succeeds. -/
def witExecC6 : Nat → CmdResult :=
  fun i => if i = 1 then .exited (some 1) else .exited (some 0)

/-! ### Helper lemmas -/

theorem ratTrunc_eq_floor (q : ℚ) (h : 0 ≤ q) : ratTrunc q = ⌊q⌋ := if_pos h

theorem i32Cast_eq_floor (q : ℚ) (h0 : 0 ≤ q) (h1 : q < 2 ^ 31) : i32Cast q = ⌊q⌋ := by
  have hf0 : (0:ℤ) ≤ ⌊q⌋ := Int.floor_nonneg.mpr h0
  have hfu : ⌊q⌋ < 2 ^ 31 := by
    rw [Int.floor_lt]
    push_cast
    exact h1
  unfold i32Cast
  rw [ratTrunc_eq_floor q h0, min_eq_right (by omega), max_eq_right (by omega)]

theorem fdiv_floor_two (q : ℚ) : Int.fdiv ⌊q⌋ 2 = ⌊q / 2⌋ := by
  rw [Int.fdiv_eq_ediv _ (by norm_num)]
  have h1 : (⌊q⌋ : ℚ) ≤ q := Int.floor_le q
  have h2 : q < ⌊q⌋ + 1 := Int.lt_floor_add_one q
  have hm : 2 * (⌊q⌋ / 2) + ⌊q⌋ % 2 = ⌊q⌋ := Int.ediv_add_emod ⌊q⌋ 2
  have hr0 : (0:ℤ) ≤ ⌊q⌋ % 2 := Int.emod_nonneg _ (by norm_num)
  have hr1 : ⌊q⌋ % 2 ≤ 1 := by
    have := Int.emod_lt_of_pos (⌊q⌋) (show (0:ℤ) < 2 by norm_num)
    omega
  symm
  rw [Int.floor_eq_iff]
  have hmQ : 2 * ((⌊q⌋ / 2 : ℤ) : ℚ) + ((⌊q⌋ % 2 : ℤ) : ℚ) = ((⌊q⌋ : ℤ) : ℚ) := by
    exact_mod_cast congrArg (fun z : ℤ => (z : ℚ)) hm
  have hr0Q : (0:ℚ) ≤ ((⌊q⌋ % 2 : ℤ) : ℚ) := by exact_mod_cast hr0
  have hr1Q : ((⌊q⌋ % 2 : ℤ) : ℚ) ≤ 1 := by exact_mod_cast hr1
  constructor <;> linarith

theorem i32AndNotOne_floor (q : ℚ) : i32AndNotOne ⌊q⌋ = roundDownEven q := by
  unfold i32AndNotOne roundDownEven
  rw [fdiv_floor_two]

theorem cmdsOf_append (a b : List Effect) : cmdsOf (a ++ b) = cmdsOf a ++ cmdsOf b := by
  unfold cmdsOf
  rw [List.filterMap_append]

theorem cmdsOf_rangeEffects (snap : WorkerSnapshot) (i : Nat) (r : VideoRange) :
    cmdsOf (rangeEffects snap i r) = [rangeArgs snap i r] := by
  unfold cmdsOf rangeEffects
  by_cases hr : r.note = "" <;> simp [hr]

theorem cmdsOf_flatten_map (f : Nat → List Effect) (g : Nat → List String)
    (hfg : ∀ k, cmdsOf (f k) = [g k]) :
    ∀ L : List Nat, cmdsOf ((L.map f).flatten) = L.map g := by
  intro L
  induction L with
  | nil => rfl
  | cons a t ih =>
    rw [List.map_cons, List.flatten_cons, cmdsOf_append, hfg a, ih, List.map_cons,
      List.singleton_append]

/-- The worker loop, started at range `i`, stops at the first failing range:
if the `j`-th remaining range is the first failure, the trace consists of the
effects for the first `j + 1` ranges only and the error cell holds the
message for index `i + j`. -/
theorem exportAux_fail (snap : WorkerSnapshot) (exec : Nat → CmdResult) :
    ∀ (j i : Nat) (l : List VideoRange), j < l.length →
    (∀ k, k < j → exec (i + k) = .exited (some 0)) →
    (exec (i + j)).success = false →
    exportAux snap exec i l =
      (((List.range (j + 1)).map fun k =>
          rangeEffects snap (i + k) (l.getD k dfltRange)).flatten,
       some (failMsg (exec (i + j)) (i + j))) := by
  intro j
  induction j with
  | zero =>
    intro i l hlen hok hfail
    match l, hlen with
    | r :: rest, _ =>
      rw [Nat.add_zero] at hfail
      unfold exportAux
      have hr1 : List.range 1 = [0] := rfl
      cases hE : exec i with
      | spawnErr e =>
        simp [hE, failMsg, hr1]
      | exited code =>
        have hc : ¬ code = some 0 := by
          intro hcc
          rw [hE, hcc] at hfail
          simp [CmdResult.success] at hfail
        simp [hE, hc, failMsg, hr1]
  | succ j ih =>
    intro i l hlen hok hfail
    match l, hlen with
    | r :: rest, hl =>
      have h0 : exec i = .exited (some 0) := by
        have := hok 0 (Nat.succ_pos j)
        simpa using this
      have hok' : ∀ k, k < j → exec (i + 1 + k) = .exited (some 0) := by
        intro k hk
        have harith : i + 1 + k = i + (k + 1) := by omega
        rw [harith]
        exact hok (k + 1) (by omega)
      have hfail' : (exec (i + 1 + j)).success = false := by
        have harith : i + 1 + j = i + (j + 1) := by omega
        rw [harith]
        exact hfail
      have hjr : j < rest.length := Nat.lt_of_succ_lt_succ hl
      have ihr := ih (i + 1) rest hjr hok' hfail'
      unfold exportAux
      rw [h0]
      simp only [↓reduceIte]
      rw [ihr]
      have harith : i + 1 + j = i + (j + 1) := by omega
      rw [harith]
      conv_rhs => rw [List.range_succ_eq_map, List.map_cons, List.flatten_cons, List.map_map]
      simp only [Prod.mk.injEq]
      refine ⟨?_, trivial⟩
      simp only [List.getD_eq_getElem?_getD, List.getElem?_cons_zero, Option.getD_some,
        Nat.add_zero]
      refine congrArg (fun xs => rangeEffects snap i r ++ xs)
        (congrArg List.flatten (List.map_congr_left ?_))
      intro k hk
      simp [Function.comp, Nat.add_assoc, Nat.add_comm, Nat.add_left_comm]

/-! ### Claim theorems -/

/-- C4: for an exported crop over intrinsic size `(w,h)`, the crop filter's
pixel width equals `round_down_even(|max_x-min_x|·w)` and is even, its
height equals `round_down_even(|max_y-min_y|·h)`, and its offsets equal
`floor(min(min_x,max_x)·w)` and `floor(min(min_y,max_y)·h)`. -/
theorem crop_pixel_math (norm : SerializableRect) (w h : ℚ)
    (hx0 : 0 ≤ norm.min_x) (hx1 : norm.min_x ≤ 1)
    (hX0 : 0 ≤ norm.max_x) (hX1 : norm.max_x ≤ 1)
    (hy0 : 0 ≤ norm.min_y) (hy1 : norm.min_y ≤ 1)
    (hY0 : 0 ≤ norm.max_y) (hY1 : norm.max_y ≤ 1)
    (hw0 : 0 ≤ w) (hw1 : w < 2 ^ 31) (hh0 : 0 ≤ h) (hh1 : h < 2 ^ 31) :
    cropNums norm w h =
      (roundDownEven (|norm.max_x - norm.min_x| * w),
       roundDownEven (|norm.max_y - norm.min_y| * h),
       ⌊min norm.min_x norm.max_x * w⌋,
       ⌊min norm.min_y norm.max_y * h⌋) ∧
    2 ∣ (cropNums norm w h).1 ∧ 2 ∣ (cropNums norm w h).2.1 := by
  have habsx : |norm.max_x - norm.min_x| ≤ 1 := by
    rw [abs_sub_le_iff]
    constructor <;> linarith
  have habsy : |norm.max_y - norm.min_y| ≤ 1 := by
    rw [abs_sub_le_iff]
    constructor <;> linarith
  have h1 : 0 ≤ |norm.max_x - norm.min_x| * w := mul_nonneg (abs_nonneg _) hw0
  have h2 : |norm.max_x - norm.min_x| * w < 2 ^ 31 :=
    lt_of_le_of_lt (mul_le_of_le_one_left hw0 habsx) hw1
  have h3 : 0 ≤ |norm.max_y - norm.min_y| * h := mul_nonneg (abs_nonneg _) hh0
  have h4 : |norm.max_y - norm.min_y| * h < 2 ^ 31 :=
    lt_of_le_of_lt (mul_le_of_le_one_left hh0 habsy) hh1
  have h5 : 0 ≤ min norm.min_x norm.max_x * w := mul_nonneg (le_min hx0 hX0) hw0
  have h6 : min norm.min_x norm.max_x * w < 2 ^ 31 :=
    lt_of_le_of_lt (mul_le_of_le_one_left hw0 (min_le_of_left_le hx1)) hw1
  have h7 : 0 ≤ min norm.min_y norm.max_y * h := mul_nonneg (le_min hy0 hY0) hh0
  have h8 : min norm.min_y norm.max_y * h < 2 ^ 31 :=
    lt_of_le_of_lt (mul_le_of_le_one_left hh0 (min_le_of_left_le hy1)) hh1
  refine ⟨?_, ?_, ?_⟩
  · unfold cropNums
    rw [i32Cast_eq_floor _ h1 h2, i32Cast_eq_floor _ h3 h4,
      i32Cast_eq_floor _ h5 h6, i32Cast_eq_floor _ h7 h8,
      i32AndNotOne_floor, i32AndNotOne_floor]
  · exact dvd_mul_right 2 _
  · exact dvd_mul_right 2 _

/-- Witness for C4 at the claim's own example: a full-width crop over
intrinsic size 1281×720 yields pixel width 1280. -/
theorem crop_pixel_math_witness :
    (cropNums fullCrop 1281 720 =
      (roundDownEven (|fullCrop.max_x - fullCrop.min_x| * 1281),
       roundDownEven (|fullCrop.max_y - fullCrop.min_y| * 720),
       ⌊min fullCrop.min_x fullCrop.max_x * 1281⌋,
       ⌊min fullCrop.min_y fullCrop.max_y * 720⌋) ∧
     2 ∣ (cropNums fullCrop 1281 720).1 ∧ 2 ∣ (cropNums fullCrop 1281 720).2.1) ∧
    cropNums fullCrop 1281 720 = (1280, 720, 0, 0) :=
  ⟨crop_pixel_math fullCrop 1281 720 (by norm_num [fullCrop]) (by norm_num [fullCrop])
    (by norm_num [fullCrop]) (by norm_num [fullCrop]) (by norm_num [fullCrop])
    (by norm_num [fullCrop]) (by norm_num [fullCrop]) (by norm_num [fullCrop])
    (by norm_num) (by norm_num) (by norm_num) (by norm_num), by
      have hx : |fullCrop.max_x - fullCrop.min_x| * (1281:ℚ) = 1281 := by norm_num [fullCrop]
      have hy : |fullCrop.max_y - fullCrop.min_y| * (720:ℚ) = 720 := by norm_num [fullCrop]
      have hmx : min fullCrop.min_x fullCrop.max_x * (1281:ℚ) = 0 := by norm_num [fullCrop]
      have hmy : min fullCrop.min_y fullCrop.max_y * (720:ℚ) = 0 := by norm_num [fullCrop]
      simp only [cropNums, hx, hy, hmx, hmy]
      decide⟩

/-- C7: for a display rect with positive width and height and a point inside
it, the display-to-normalized mapping and its inverse round-trip exactly (the
embedding computes with exact rationals, so "up to floating-point tolerance"
is witnessed by exact equality). -/
theorem to_from_norm_roundtrip (rect : DispRect) (p : ℚ × ℚ)
    (hw : 0 < rect.width) (hh : 0 < rect.height)
    (hx1 : rect.min_x ≤ p.1) (hx2 : p.1 ≤ rect.min_x + rect.width)
    (hy1 : rect.min_y ≤ p.2) (hy2 : p.2 ≤ rect.min_y + rect.height) :
    from_norm rect (to_norm rect p) = p := by
  unfold from_norm to_norm
  have h1 : (p.1 - rect.min_x) / rect.width * rect.width + rect.min_x = p.1 := by
    field_simp
  have h2 : (p.2 - rect.min_y) / rect.height * rect.height + rect.min_y = p.2 := by
    field_simp
  calc ((p.1 - rect.min_x) / rect.width * rect.width + rect.min_x,
        (p.2 - rect.min_y) / rect.height * rect.height + rect.min_y)
      = (p.1, p.2) := by rw [h1, h2]
    _ = p := rfl

/-- Witness for C7 on the rect at origin with extent 2×3 and the point (1,1). -/
theorem to_from_norm_roundtrip_witness :
    (0 < (DispRect.mk 0 0 2 3).width ∧ 0 < (DispRect.mk 0 0 2 3).height) ∧
    from_norm (DispRect.mk 0 0 2 3) (to_norm (DispRect.mk 0 0 2 3) (1, 1)) = (1, 1) :=
  ⟨⟨by norm_num, by norm_num⟩,
   to_from_norm_roundtrip (DispRect.mk 0 0 2 3) (1, 1) (by norm_num) (by norm_num)
     (by norm_num) (by norm_num) (by norm_num) (by norm_num)⟩

/-- C1 counterexample: from the reachable state `cexStC1` (one range `[0,5]`,
playhead at 7), the set-start mutation (I key / Set Start button) produces a
range with `start_time > end_time`: the ordering invariant is not enforced at
this mutation. -/
theorem set_start_violates_order_cex :
    ¬ (((setStart cexStC1).ranges.getD 0 dfltRange).start_time ≤
       ((setStart cexStC1).ranges.getD 0 dfltRange).end_time) := by
  decide

/-- C1 amended: set-start and set-end write `current_time` into the current
range unconditionally, and add-range appends `{current_time, duration}`
verbatim; no comparison against the other endpoint, 0, or the duration is
performed. -/
theorem range_time_writes_unclamped (st : VideoApp)
    (h : st.current_range_idx < st.ranges.length) :
    ((setStart st).ranges.getD st.current_range_idx dfltRange).start_time = st.current_time ∧
    ((setStart st).ranges.getD st.current_range_idx dfltRange).end_time =
      (st.ranges.getD st.current_range_idx dfltRange).end_time ∧
    ((setEnd st).ranges.getD st.current_range_idx dfltRange).end_time = st.current_time ∧
    ((setEnd st).ranges.getD st.current_range_idx dfltRange).start_time =
      (st.ranges.getD st.current_range_idx dfltRange).start_time ∧
    (addRange st).ranges.getD st.ranges.length dfltRange =
      { start_time := st.current_time, end_time := st.duration,
        crop_rect_norm := none, note := "" } := by
  have hne : st.ranges.isEmpty = false := by
    rw [List.isEmpty_eq_false]
    exact List.ne_nil_of_length_pos (Nat.lt_of_le_of_lt (Nat.zero_le _) h)
  refine ⟨?_, ?_, ?_, ?_, ?_⟩
  · simp only [setStart, hne, Bool.false_eq_true, if_false]
    rw [List.getD_eq_getElem?_getD, List.getElem?_set_self h]
    rfl
  · simp only [setStart, hne, Bool.false_eq_true, if_false]
    rw [List.getD_eq_getElem?_getD, List.getElem?_set_self h]
    rfl
  · simp only [setEnd, hne, Bool.false_eq_true, if_false]
    rw [List.getD_eq_getElem?_getD, List.getElem?_set_self h]
    rfl
  · simp only [setEnd, hne, Bool.false_eq_true, if_false]
    rw [List.getD_eq_getElem?_getD, List.getElem?_set_self h]
    rfl
  · simp only [addRange]
    rw [List.getD_eq_getElem?_getD, List.getElem?_concat_length]
    rfl

/-- Witness for C1's amended theorem at the concrete state `witStC1`. -/
theorem range_time_writes_unclamped_witness :
    witStC1.current_range_idx < witStC1.ranges.length ∧
    (((setStart witStC1).ranges.getD witStC1.current_range_idx dfltRange).start_time =
        witStC1.current_time ∧
     ((setStart witStC1).ranges.getD witStC1.current_range_idx dfltRange).end_time =
        (witStC1.ranges.getD witStC1.current_range_idx dfltRange).end_time ∧
     ((setEnd witStC1).ranges.getD witStC1.current_range_idx dfltRange).end_time =
        witStC1.current_time ∧
     ((setEnd witStC1).ranges.getD witStC1.current_range_idx dfltRange).start_time =
        (witStC1.ranges.getD witStC1.current_range_idx dfltRange).start_time ∧
     (addRange witStC1).ranges.getD witStC1.ranges.length dfltRange =
       { start_time := witStC1.current_time, end_time := witStC1.duration,
         crop_rect_norm := none, note := "" }) :=
  ⟨by decide, range_time_writes_unclamped witStC1 (by decide)⟩

/-- C2 counterexample: removing the only range leaves the list empty (no
default range is re-inserted), and `current_range_idx` is then not in
`[0, len)` since the interval is empty. -/
theorem remove_last_range_empties_cex :
    (removeRange cexStC2 0).ranges = [] ∧
    ¬ ((removeRange cexStC2 0).current_range_idx < (removeRange cexStC2 0).ranges.length) := by
  decide

/-- C2 amended: a removal shrinks the list by one and clamps
`current_range_idx` to `min current_range_idx (len - 1)` (ℕ saturating);
when the remaining list is non-empty this places the cursor in `[0, len)`,
but an emptied list stays empty. -/
theorem remove_range_clamps (st : VideoApp) (idx : Nat) (h : idx < st.ranges.length) :
    (removeRange st idx).ranges.length = st.ranges.length - 1 ∧
    (removeRange st idx).current_range_idx =
      min st.current_range_idx ((removeRange st idx).ranges.length - 1) ∧
    ((removeRange st idx).ranges ≠ [] →
      (removeRange st idx).current_range_idx < (removeRange st idx).ranges.length) := by
  refine ⟨?_, rfl, ?_⟩
  · show (st.ranges.eraseIdx idx).length = st.ranges.length - 1
    rw [List.length_eraseIdx, if_pos h]
  · intro hne
    have hpos : 0 < (removeRange st idx).ranges.length := List.length_pos.mpr hne
    have hmin := Nat.min_le_right st.current_range_idx ((removeRange st idx).ranges.length - 1)
    have hidx : (removeRange st idx).current_range_idx =
        min st.current_range_idx ((removeRange st idx).ranges.length - 1) := rfl
    omega

/-- Witness for C2's amended theorem: removing range 1 of 2 at `witStC2`. -/
theorem remove_range_clamps_witness :
    1 < witStC2.ranges.length ∧
    ((removeRange witStC2 1).ranges.length = witStC2.ranges.length - 1 ∧
     (removeRange witStC2 1).current_range_idx =
       min witStC2.current_range_idx ((removeRange witStC2 1).ranges.length - 1) ∧
     ((removeRange witStC2 1).ranges ≠ [] →
       (removeRange witStC2 1).current_range_idx < (removeRange witStC2 1).ranges.length)) :=
  ⟨by decide, remove_range_clamps witStC2 1 (by decide)⟩

/-- C3 counterexample: at `cexStC3` the exporting flag is already true, yet
`run_export` is not a no-op — it spawns another worker and mutates state
(the stale error cell is cleared). -/
theorem run_export_busy_not_noop_cex :
    (runExport cexStC3).2.isSome = true ∧ (runExport cexStC3).1 ≠ cexStC3 := by
  decide

/-- C3 amended: `run_export` never tests the exporting flag; whenever a file
is selected and an output folder is set it stores `true` with a plain store
(not compare-and-set), clears the error cell, and spawns a worker — even if
an export is already active.  Re-entry is prevented only by the UI: the
export button is disabled while the flag is true, so `run_export` is
unreachable from the UI during an export. -/
theorem run_export_ignores_flag (st : VideoApp) (i : Nat) (d : String)
    (hsel : st.selected_file_idx = some i) (hout : st.output_folder = some d)
    (hexp : st.is_exporting = true) :
    (runExport st).2.isSome = true ∧
    (runExport st).1.is_exporting = true ∧
    (runExport st).1.export_error = none ∧
    uiExportClick st = (st, none) := by
  simp [runExport, hsel, hout, uiExportClick, exportButtonEnabled, hexp]

/-- Witness for C3's amended theorem at the busy state `cexStC3`. -/
theorem run_export_ignores_flag_witness :
    (cexStC3.selected_file_idx = some 0 ∧ cexStC3.output_folder = some "out" ∧
     cexStC3.is_exporting = true) ∧
    ((runExport cexStC3).2.isSome = true ∧
     (runExport cexStC3).1.is_exporting = true ∧
     (runExport cexStC3).1.export_error = none ∧
     uiExportClick cexStC3 = (cexStC3, none)) :=
  ⟨⟨rfl, rfl, rfl⟩, run_export_ignores_flag cexStC3 0 "out" rfl rfl rfl⟩

/-- C8 counterexample: at `cexStC8` (deadline 5 equal to the duration), the
tick that lands exactly on `current_time = 5` stops playback even though
`current_time > deadline` is false — playback does stop while `current_time`
equals the deadline. -/
theorem play_until_stops_at_deadline_cex :
    (tick cexStC8 1).current_time = 5 ∧
    (tick cexStC8 1).play_state = PlayState.NotPlaying ∧
    ¬ ((5:ℚ) < 5) := by
  refine ⟨?_, ?_, by norm_num⟩ <;>
    norm_num [tick, cexStC8, baseApp, VideoApp.isPlaying]

/-- C8 amended: with `PlayingUntil e` on a video, a tick advances
`current_time` by `dt` and stops playback iff the new time strictly exceeds
`e` (the comparison is strict, so equality alone does not stop it) or the
new time reaches the duration — the duration check can stop playback even at
`current_time = e`. -/
theorem play_until_tick (st : VideoApp) (e dt : ℚ)
    (hps : st.play_state = .PlayingUntil e) (himg : st.is_image = false) :
    (tick st dt).current_time = st.current_time + dt ∧
    ((tick st dt).play_state = .NotPlaying ↔
      e < st.current_time + dt ∨ st.duration ≤ st.current_time + dt) := by
  have hplay : st.isPlaying = true := by
    unfold VideoApp.isPlaying
    rw [hps]
  unfold tick
  rw [hplay, himg]
  simp only [hps, Bool.not_false, Bool.and_self, if_true]
  by_cases h1 : e < st.current_time + dt <;>
    by_cases h2 : st.duration ≤ st.current_time + dt <;>
      simp [h1, h2]

/-- Witness for C8's amended theorem at `witStC8` (deadline 3, duration 100). -/
theorem play_until_tick_witness :
    (witStC8.play_state = PlayState.PlayingUntil 3 ∧ witStC8.is_image = false) ∧
    ((tick witStC8 1).current_time = witStC8.current_time + 1 ∧
     ((tick witStC8 1).play_state = .NotPlaying ↔
       3 < witStC8.current_time + 1 ∨ witStC8.duration ≤ witStC8.current_time + 1)) :=
  ⟨⟨rfl, rfl⟩, play_until_tick witStC8 3 1 rfl rfl⟩

/-- C9 counterexample: selecting file 1 at `cexStC9` with a failing open
still changes the selection state (`selected_file_idx` moves from 0 to 1):
the selection is not fully ignored. -/
theorem failed_open_changes_selection_cex :
    (selectFile cexStC9 1 "" none none).selected_file_idx ≠ cexStC9.selected_file_idx := by
  decide

/-- C9 amended: when the open fails, the media, duration, fps, ranges,
cursor, time and play state all stay — but `selected_file_idx` is updated to
the clicked index and `is_image` is recomputed from the new file's
extension, because both are assigned before the open is attempted. -/
theorem failed_open_keeps_session (st : VideoApp) (idx : Nat) (note : String) :
    (selectFile st idx note none none).media = st.media ∧
    (selectFile st idx note none none).duration = st.duration ∧
    (selectFile st idx note none none).native_fps = st.native_fps ∧
    (selectFile st idx note none none).ranges = st.ranges ∧
    (selectFile st idx note none none).current_range_idx = st.current_range_idx ∧
    (selectFile st idx note none none).current_time = st.current_time ∧
    (selectFile st idx note none none).play_state = st.play_state ∧
    (selectFile st idx note none none).selected_file_idx = some idx ∧
    (selectFile st idx note none none).is_image =
      isImageExt (lowerStr (st.videos.getD idx dfltPath).ext) := by
  cases hb : isImageExt (lowerStr (st.videos.getD idx dfltPath).ext) <;>
    simp [selectFile, hb] <;> simpa using hb

/-- C5: for a video snapshot with the single range `{start=0, end=5}`, no
crop and an empty note, the worker invokes the transcoder exactly once, with
exactly the arguments `-y -ss 0 -to 5 -i <input> -vf fps=16 -c:v libx264
-preset ultrafast <out>/<stem>.mp4` (the seek pair before `-i`), and writes
no `.txt` sidecar — whatever the child process reports back. -/
theorem single_range_video_export (stem inputPath outDir : String) (w h : ℚ)
    (exec : Nat → CmdResult) :
    cmdsOf (exportEffects
      { ranges := [{ start_time := 0, end_time := 5, crop_rect_norm := none, note := "" }],
        isImg := false, ext := "mp4", stem := stem, inputPath := inputPath,
        outDir := outDir, vidW := w, vidH := h } exec).1 =
      [["-y", "-ss", "0", "-to", "5", "-i", inputPath, "-vf", "fps=16",
        "-c:v", "libx264", "-preset", "ultrafast", outDir ++ "/" ++ stem ++ ".mp4"]] ∧
    notesOf (exportEffects
      { ranges := [{ start_time := 0, end_time := 5, crop_rect_norm := none, note := "" }],
        isImg := false, ext := "mp4", stem := stem, inputPath := inputPath,
        outDir := outDir, vidW := w, vidH := h } exec).1 = [] := by
  have h0 : fmtF64 0 = "0" := rfl
  have h5 : fmtF64 5 = "5" := rfl
  have hdot : outDir ++ "/" ++ stem ++ "." ++ "mp4" = outDir ++ "/" ++ stem ++ ".mp4" := by
    rw [String.append_assoc (outDir ++ "/" ++ stem)]
    rfl
  have hI : ",".intercalate ["fps=16"] = "fps=16" := rfl
  cases hE : exec 0 with
  | spawnErr e =>
    simp [exportEffects, exportAux, hE, rangeEffects, rangeArgs, outBaseFor,
      cmdsOf, notesOf, h0, h5, hdot, hI]
  | exited code =>
    by_cases hc : code = some 0 <;>
      simp [exportEffects, exportAux, hE, hc, rangeEffects, rangeArgs, outBaseFor,
        cmdsOf, notesOf, h0, h5, hdot, hI]

/-- C6: the worker processes ranges strictly in list order and is
fail-fast: when every invocation before index `j` succeeds and the `j`-th
one fails (spawn failure or non-zero exit), the stored error is the message
for the failure at `j` (naming range `j`, or the spawn error), and exactly
the commands for ranges `0..j`, in order, are run — no later range is
attempted. -/
theorem export_fail_fast (snap : WorkerSnapshot) (exec : Nat → CmdResult) (j : Nat)
    (hj : j < snap.ranges.length)
    (hok : ∀ k, k < j → exec k = .exited (some 0))
    (hfail : (exec j).success = false) :
    (exportEffects snap exec).2 = some (failMsg (exec j) j) ∧
    cmdsOf (exportEffects snap exec).1 =
      (List.range (j + 1)).map fun k => rangeArgs snap k (snap.ranges.getD k dfltRange) := by
  have h := exportAux_fail snap exec j 0 snap.ranges hj (by simpa using hok) (by simpa using hfail)
  unfold exportEffects
  rw [h]
  constructor
  · simp
  · rw [cmdsOf_flatten_map (fun k => rangeEffects snap (0 + k) (snap.ranges.getD k dfltRange))
      (fun k => rangeArgs snap (0 + k) (snap.ranges.getD k dfltRange))
      (fun k => cmdsOf_rangeEffects snap (0 + k) (snap.ranges.getD k dfltRange))]
    simp

/-- Witness for C6 at the three-range snapshot `witSnapC6`, whose second
invocation exits with code 1. -/
theorem export_fail_fast_witness :
    (1 < witSnapC6.ranges.length ∧ (∀ k, k < 1 → witExecC6 k = .exited (some 0)) ∧
     (witExecC6 1).success = false) ∧
    ((exportEffects witSnapC6 witExecC6).2 = some (failMsg (witExecC6 1) 1) ∧
     cmdsOf (exportEffects witSnapC6 witExecC6).1 =
       (List.range (1 + 1)).map fun k => rangeArgs witSnapC6 k (witSnapC6.ranges.getD k dfltRange)) :=
  ⟨⟨by decide, by decide, by decide⟩,
   export_fail_fast witSnapC6 witExecC6 1 (by decide) (by decide) (by decide)⟩

/-- C10: loading a file (successfully or not, image or video) leaves
`play_state` untouched, so an app in `Playing` or `PlayingUntil` keeps
playing across the load. -/
theorem load_keeps_play_state (st : VideoApp) (idx : Nat) (note : String)
    (ir : Option (ℚ × ℚ)) (vr : Option (ℚ × ℚ × ℚ × ℚ)) :
    (selectFile st idx note ir vr).play_state = st.play_state := by
  rcases ir with _ | ⟨w1, h1⟩ <;> rcases vr with _ | ⟨fps, fr, w2, h2⟩ <;>
    simp only [selectFile] <;> split <;> rfl

end VidCrop
